import Mathlib

/-!
Shallow embedding of the geometric core of react-native-video-transformer.

The iOS path (ios/VideoTransformer.swift) computes CoreGraphics affine
transforms and render sizes for rotateVideo, cropVideo and cropAndRotateVideo.
CGFloat / Double arithmetic is modelled over the rationals; the only
trigonometric values the code ever uses are cos/sin of quarter turns, which
are taken exactly (0, 1, -1).  The Android path (the Kotlin module) computes
an integer CropRect and drives a decoder/encoder/muxer loop; the loop is
modelled as a state machine over an arbitrary script of codec events.
-/

namespace VTrans

/-- CoreGraphics affine transform: the matrix [a b; c d] with translation
(tx, ty), acting on row vectors as (x, y) ↦ (a x + c y + tx, b x + d y + ty).
Entries are rationals (exact model of the quarter-turn arithmetic in the
Swift source). -/
structure CGAffine where
  a : ℚ
  b : ℚ
  c : ℚ
  d : ℚ
  tx : ℚ
  ty : ℚ
deriving DecidableEq, Repr

/-- CGAffineTransform.identity. -/
def CGAffine.id0 : CGAffine := ⟨1, 0, 0, 1, 0, 0⟩

/-- CGAffineTransform(translationX:y:). -/
def CGAffine.translationBy (x y : ℚ) : CGAffine := ⟨1, 0, 0, 1, x, y⟩

/-- CGAffineTransformConcat t1 t2 (apply t1 first, then t2), i.e. the
matrix product t1 * t2 in the row-vector convention used by CoreGraphics. -/
def CGAffine.concatenating (t1 t2 : CGAffine) : CGAffine :=
  ⟨t1.a * t2.a + t1.b * t2.c,
   t1.a * t2.b + t1.b * t2.d,
   t1.c * t2.a + t1.d * t2.c,
   t1.c * t2.b + t1.d * t2.d,
   t1.tx * t2.a + t1.ty * t2.c + t2.tx,
   t1.tx * t2.b + t1.ty * t2.d + t2.ty⟩

/-- Pure rotation transform with the given cosine and sine
(CGAffineTransform(rotationAngle:) has a = cos, b = sin, c = -sin, d = cos). -/
def CGAffine.rotation (cosv sinv : ℚ) : CGAffine := ⟨cosv, sinv, -sinv, cosv, 0, 0⟩

/-- Swift `t.rotated(by: θ)` = CGAffineTransformRotate(t, θ): the rotation is
applied before t.  The angle is passed as its exact cosine and sine (the
source only ever rotates by ±π/2 and π). -/
def CGAffine.rotatedBy (t : CGAffine) (cosv sinv : ℚ) : CGAffine :=
  (CGAffine.rotation cosv sinv).concatenating t

/-- Swift `t.translatedBy(x:y:)` = CGAffineTransformTranslate(t, x, y): the
translation is applied before t. -/
def CGAffine.translatedBy (t : CGAffine) (x y : ℚ) : CGAffine :=
  (CGAffine.translationBy x y).concatenating t

/-- Swift `t.scaledBy(x:y:)` = CGAffineTransformScale(t, sx, sy): the scale is
applied before t. -/
def CGAffine.scaledBy (t : CGAffine) (sx sy : ℚ) : CGAffine :=
  (CGAffine.concatenating ⟨sx, 0, 0, sy, 0, 0⟩ t)

/-- Transform plus render size, the data rotateVideo puts on the video
composition (transform on the layer instruction, renderSize on the
composition). -/
structure RenderSpec where
  transform : CGAffine
  renderWidth : ℚ
  renderHeight : ℚ
deriving DecidableEq, Repr

/-- Rotation-only transform calculation of iOS rotateVideo
(ios/VideoTransformer.swift, the if/else chain on `angle` that sets
`transform` and `renderSize` from videoWidth/videoHeight). -/
def rotateVideoRender (angle : ℤ) (videoWidth videoHeight : ℚ) : RenderSpec :=
  if angle = 90 then
    { transform := (CGAffine.translationBy videoHeight 0).rotatedBy 0 1,
      renderWidth := videoHeight, renderHeight := videoWidth }
  else if angle = -90 ∨ angle = 270 then
    { transform := (CGAffine.translationBy 0 videoWidth).rotatedBy 0 (-1),
      renderWidth := videoHeight, renderHeight := videoWidth }
  else if angle = 180 then
    { transform := (CGAffine.translationBy videoWidth videoHeight).rotatedBy (-1) 0,
      renderWidth := videoWidth, renderHeight := videoHeight }
  else
    { transform := CGAffine.id0,
      renderWidth := videoWidth, renderHeight := videoHeight }

/-- Video track metadata used by the iOS methods: natural size plus the
track's embedded orientation transform (preferredTransform). -/
structure VideoTrackInfo where
  naturalWidth : ℚ
  naturalHeight : ℚ
  preferred : CGAffine
deriving DecidableEq, Repr

/-- Transform that iOS rotateVideo attaches to its layer instruction.  The
source computes the rotation from naturalSize only and calls
`layerInstruction.setTransform(transform, at: .zero)`; the track's
preferredTransform is never read in rotateVideo (the source comments that the
existing preferredTransform is deliberately ignored). -/
def rotateVideoLayerTransform (track : VideoTrackInfo) (angle : ℤ) : CGAffine :=
  (rotateVideoRender angle track.naturalWidth track.naturalHeight).transform

/-- Swift `position.lowercased()` / Kotlin `position.lowercase()`,
character by character. -/
def lowercased (s : String) : String := String.mk (s.data.map Char.toLower)

/-- Rotation angle of a transform as the iOS crop methods compute it:
`atan2(transform.b, transform.a)`, i.e. the argument of the complex number
a + b·i.  Rational matrix entries are read as reals. -/
noncomputable def rotAngleOf (t : CGAffine) : ℝ :=
  Complex.arg ⟨(t.a : ℝ), (t.b : ℝ)⟩

/-- Detection used by iOS cropVideo / cropAndRotateVideo:
`abs(angle - .pi/2) < 0.01 || abs(angle + .pi/2) < 0.01`. -/
def isRotatedDetect (t : CGAffine) : Prop :=
  |rotAngleOf t - Real.pi / 2| < 1 / 100 ∨ |rotAngleOf t + Real.pi / 2| < 1 / 100

/-- Crop-origin switch of iOS cropVideo (the `switch position.lowercased()`
over all nine anchors, with the center default). -/
def anchorOffsetsQ (position : String) (naturalW naturalH cw ch : ℚ) : ℚ × ℚ :=
  match lowercased position with
  | "center" => ((naturalW - cw) / 2, (naturalH - ch) / 2)
  | "top" => ((naturalW - cw) / 2, 0)
  | "bottom" => ((naturalW - cw) / 2, naturalH - ch)
  | "left" => (0, (naturalH - ch) / 2)
  | "right" => (naturalW - cw, (naturalH - ch) / 2)
  | "top-left" => (0, 0)
  | "top-right" => (naturalW - cw, 0)
  | "bottom-left" => (0, naturalH - ch)
  | "bottom-right" => (naturalW - cw, naturalH - ch)
  | _ => ((naturalW - cw) / 2, (naturalH - ch) / 2)

/-- Crop-origin switch of iOS cropAndRotateVideo: its `switch` only lists
`center`, `top` and `bottom`; every other position string falls into the
default case, which uses the center offsets. -/
def anchorOffsetsLimited (position : String) (naturalW naturalH cw ch : ℚ) : ℚ × ℚ :=
  match lowercased position with
  | "center" => ((naturalW - cw) / 2, (naturalH - ch) / 2)
  | "top" => ((naturalW - cw) / 2, 0)
  | "bottom" => ((naturalW - cw) / 2, naturalH - ch)
  | _ => ((naturalW - cw) / 2, (naturalH - ch) / 2)

/-- Everything iOS cropVideo computes from the track geometry: display
dimensions, crop dimensions in display and natural space, crop origin,
render size, and the transform put on the layer instruction.  `isRotated`
is the boolean the source derives from the preferredTransform's rotation
angle (see isRotatedDetect); it is passed in explicitly so the geometry
stays executable. -/
structure CropGeom where
  displayWidth : ℚ
  displayHeight : ℚ
  cropDisplayWidth : ℚ
  cropDisplayHeight : ℚ
  cropWidth : ℚ
  cropHeight : ℚ
  cropX : ℚ
  cropY : ℚ
  renderWidth : ℚ
  renderHeight : ℚ
  finalTransform : CGAffine
deriving DecidableEq, Repr

/-- Geometry part of iOS cropVideo (ios/VideoTransformer.swift): display
dimensions swap when rotated, crop sized in display space by comparing the
target ratio with the display aspect, mapped back to natural space, origin
per anchor, render size = display-space crop size, and the final transform
`originalTransform.concatenating(translate(-cropX,-cropY).scale(sx,sy))`. -/
def cropVideoGeom (naturalW naturalH : ℚ) (preferred : CGAffine) (isRotated : Bool)
    (target : ℚ) (position : String) : CropGeom :=
  let displayW := if isRotated then naturalH else naturalW
  let displayH := if isRotated then naturalW else naturalH
  let displayAspect := displayW / displayH
  let cdw := if target > displayAspect then displayW else displayH * target
  let cdh := if target > displayAspect then displayW / target else displayH
  let cw := if isRotated then cdh else cdw
  let ch := if isRotated then cdw else cdh
  let cx := (anchorOffsetsQ position naturalW naturalH cw ch).1
  let cy := (anchorOffsetsQ position naturalW naturalH cw ch).2
  let scaleX := cdw / cw
  let scaleY := cdh / ch
  let cropTransform := (CGAffine.id0.translatedBy (-cx) (-cy)).scaledBy scaleX scaleY
  { displayWidth := displayW, displayHeight := displayH,
    cropDisplayWidth := cdw, cropDisplayHeight := cdh,
    cropWidth := cw, cropHeight := ch, cropX := cx, cropY := cy,
    renderWidth := cdw, renderHeight := cdh,
    finalTransform := preferred.concatenating cropTransform }

/-- Rectangle in natural pixel coordinates (CGRect of the crop). -/
structure RectQ where
  x : ℚ
  y : ℚ
  width : ℚ
  height : ℚ
deriving DecidableEq, Repr

/-- Layer instruction as iOS cropAndRotateVideo configures it: a transform
(setTransform) and an optional hard crop rectangle (setCropRectangle). -/
structure LayerInstr where
  transform : CGAffine
  cropRectangle : Option RectQ
deriving DecidableEq, Repr

/-- Output of iOS cropAndRotateVideo's geometry: the crop data, the rotation
transform computed from the cropped display dimensions, the final render
size, and the layer instruction carrying `preferred.concatenating(rotation)`
plus the crop rectangle. -/
structure CropRotateGeom where
  cropDisplayWidth : ℚ
  cropDisplayHeight : ℚ
  cropRect : RectQ
  rotationTransform : CGAffine
  finalRenderWidth : ℚ
  finalRenderHeight : ℚ
  layer : LayerInstr
deriving DecidableEq, Repr

/-- Geometry part of iOS cropAndRotateVideo (ios/VideoTransformer.swift):
crop computed exactly as in cropVideo but with the reduced anchor switch,
then the rotation transform and final render size computed from
cropDisplayWidth/cropDisplayHeight, and the layer instruction set to the
combined transform `transform.concatenating(rotationTransform)` together
with `setCropRectangle(cropRect)`. -/
def cropAndRotateGeom (naturalW naturalH : ℚ) (preferred : CGAffine) (isRotated : Bool)
    (target : ℚ) (position : String) (angle : ℤ) : CropRotateGeom :=
  let displayW := if isRotated then naturalH else naturalW
  let displayH := if isRotated then naturalW else naturalH
  let cdw := if target > displayW / displayH then displayW else displayH * target
  let cdh := if target > displayW / displayH then displayW / target else displayH
  let cw := if isRotated then cdh else cdw
  let ch := if isRotated then cdw else cdh
  let cx := (anchorOffsetsLimited position naturalW naturalH cw ch).1
  let cy := (anchorOffsetsLimited position naturalW naturalH cw ch).2
  let rotationTransform :=
    if angle = 90 then (CGAffine.translationBy cdh 0).rotatedBy 0 1
    else if angle = -90 ∨ angle = 270 then (CGAffine.translationBy 0 cdw).rotatedBy 0 (-1)
    else if angle = 180 then (CGAffine.translationBy cdw cdh).rotatedBy (-1) 0
    else CGAffine.id0
  let frw := if angle = 90 then cdh else if angle = -90 ∨ angle = 270 then cdh
    else if angle = 180 then cdw else cdw
  let frh := if angle = 90 then cdw else if angle = -90 ∨ angle = 270 then cdw
    else if angle = 180 then cdh else cdh
  { cropDisplayWidth := cdw, cropDisplayHeight := cdh,
    cropRect := ⟨cx, cy, cw, ch⟩,
    rotationTransform := rotationTransform,
    finalRenderWidth := frw, finalRenderHeight := frh,
    layer := { transform := preferred.concatenating rotationTransform,
               cropRectangle := some ⟨cx, cy, cw, ch⟩ } }

/-- Android CropRect data class (integer pixels). -/
structure CropRectZ where
  x : ℤ
  y : ℤ
  width : ℤ
  height : ℤ
deriving DecidableEq, Repr

/-- Kotlin `Double.toInt()` on an exact rational value: truncation toward
zero. -/
def truncToInt (q : ℚ) : ℤ := Int.tdiv q.num (q.den : ℤ)

/-- Crop-origin `when` of Android calculateCropRect (all nine anchors plus
the center default); Kotlin Int division truncates toward zero. -/
def anchorOffsetsZ (position : String) (videoWidth videoHeight cw ch : ℤ) : ℤ × ℤ :=
  match lowercased position with
  | "center" => (Int.tdiv (videoWidth - cw) 2, Int.tdiv (videoHeight - ch) 2)
  | "top" => (Int.tdiv (videoWidth - cw) 2, 0)
  | "bottom" => (Int.tdiv (videoWidth - cw) 2, videoHeight - ch)
  | "left" => (0, Int.tdiv (videoHeight - ch) 2)
  | "right" => (videoWidth - cw, Int.tdiv (videoHeight - ch) 2)
  | "top-left" => (0, 0)
  | "top-right" => (videoWidth - cw, 0)
  | "bottom-left" => (0, videoHeight - ch)
  | "bottom-right" => (videoWidth - cw, videoHeight - ch)
  | _ => (Int.tdiv (videoWidth - cw) 2, Int.tdiv (videoHeight - ch) 2)

/-- Android calculateCropRect (VideoTransformerModule.kt): crop dimensions
chosen by comparing the target ratio to the video aspect, truncated to Int,
then positioned by the anchor switch. -/
def calculateCropRect (videoWidth videoHeight : ℤ) (target : ℚ) (position : String) :
    CropRectZ :=
  let videoAspect : ℚ := (videoWidth : ℚ) / (videoHeight : ℚ)
  let cropWidth : ℤ :=
    if target > videoAspect then videoWidth else truncToInt ((videoHeight : ℚ) * target)
  let cropHeight : ℤ :=
    if target > videoAspect then truncToInt ((videoWidth : ℚ) / target) else videoHeight
  let xy := anchorOffsetsZ position videoWidth videoHeight cropWidth cropHeight
  ⟨xy.1, xy.2, cropWidth, cropHeight⟩

/-- Left-to-right split on a delimiter character, keeping empty segments;
this is the semantics of Kotlin `String.split(":")` and of splitting before
Swift drops empty subsequences. -/
def splitChar (delim : Char) : List Char → List (List Char)
  | [] => [[]]
  | c :: rest =>
    match splitChar delim rest with
    | [] => [[c]]
    | g :: gs => if c = delim then [] :: g :: gs else (c :: g) :: gs

/-- Swift `aspectRatio.split(separator: ":")`: empty subsequences are
omitted by default. -/
def splitSwift (s : String) : List (List Char) :=
  (splitChar ':' s.data).filter (fun g => g ≠ [])

/-- Kotlin `aspectRatio.split(":")`: empty strings are kept. -/
def splitKotlin (s : String) : List (List Char) :=
  splitChar ':' s.data

/-- Value of a nonempty string of decimal digits; none on any other
character or on the empty list. -/
def decDigits (cs : List Char) : Option ℕ :=
  match cs with
  | [] => none
  | _ =>
    cs.foldl
      (fun acc c => acc.bind (fun n => if c.isDigit then some (10 * n + (c.toNat - 48)) else none))
      (some 0)

/-- Model of Swift `Double(String)` / Kotlin `String.toDoubleOrNull()` on
plain decimal literals: optional sign, digits with at most one decimal
point, at least one digit.  Values are exact rationals. -/
def parseDecimal (cs : List Char) : Option ℚ :=
  let signed : Bool × List Char :=
    match cs with
    | '-' :: rest => (true, rest)
    | '+' :: rest => (false, rest)
    | _ => (false, cs)
  let body := signed.2
  let val : Option ℚ :=
    match splitChar '.' body with
    | [ip] => (decDigits ip).map (fun n => (n : ℚ))
    | [ip, fp] =>
      if ip = [] ∧ fp = [] then none
      else if ip = [] then (decDigits fp).map (fun f => (f : ℚ) / (10 : ℚ) ^ fp.length)
      else if fp = [] then (decDigits ip).map (fun n => (n : ℚ))
      else
        match decDigits ip, decDigits fp with
        | some n, some f => some ((n : ℚ) + (f : ℚ) / (10 : ℚ) ^ fp.length)
        | _, _ => none
    | _ => none
  val.map (fun v => if signed.1 then -v else v)

/-- Aspect-ratio parsing of iOS cropVideo / cropAndRotateVideo: split on ":",
require exactly two components, parse both as Double, return
widthRatio / heightRatio. -/
def swiftParseAspect (s : String) : Option ℚ :=
  match splitSwift s with
  | [w, h] =>
    match parseDecimal w, parseDecimal h with
    | some wr, some hr => some (wr / hr)
    | _, _ => none
  | _ => none

/-- Aspect-ratio parsing of Android cropVideo: split on ":", require size 2,
toDoubleOrNull both, return widthRatio / heightRatio. -/
def kotlinParseAspect (s : String) : Option ℚ :=
  match splitKotlin s with
  | [w, h] =>
    match parseDecimal w, parseDecimal h with
    | some wr, some hr => some (wr / hr)
    | _, _ => none
  | _ => none

/-- Observable control-flow events of a crop entry point, in order: opening
or enumerating the source's tracks, a rejection with an error code, the crop
geometry computation, and the export or processing stage. -/
inductive CropEv where
  | openTracks
  | reject (code : String)
  | computeCrop
  | runExport
deriving DecidableEq, Repr

/-- Control flow of iOS cropVideo in source order: the URL guard, then
`asset.tracks(withMediaType: .video).first` (a track enumeration), then the
aspect-ratio parse, then the crop computation and export. -/
def iosCropVideoTrace (pathOk hasVideo : Bool) (aspect : String) : List CropEv :=
  if pathOk = false then [.reject "INVALID_PATH"]
  else if hasVideo = false then [.openTracks, .reject "NO_VIDEO_TRACK"]
  else
    match swiftParseAspect aspect with
    | none => [.openTracks, .reject "INVALID_ASPECT_RATIO"]
    | some _ => [.openTracks, .computeCrop, .runExport]

/-- Control flow of Android cropVideo in source order: the file-exists
guard, then the aspect-ratio split/parse, and only then the MediaExtractor
track scan, crop computation and GL processing. -/
def androidCropVideoTrace (fileExists hasVideo : Bool) (aspect : String) : List CropEv :=
  if fileExists = false then [.reject "INVALID_PATH"]
  else
    match kotlinParseAspect aspect with
    | none => [.reject "INVALID_ASPECT_RATIO"]
    | some _ =>
      if hasVideo = false then [.openTracks, .reject "NO_VIDEO_TRACK"]
      else [.openTracks, .computeCrop, .runExport]

/-- Result of the JavaScript rotateVideo wrapper: one of its two thrown
validation errors, or the call it forwards to the native module. -/
inductive JsRotate where
  | errInvalidPath
  | errInvalidAngle
  | nativeCall (angle : ℤ)
deriving DecidableEq, Repr

/-- Legal angles of the JavaScript wrapper (`validAngles`). -/
def validAngles : List ℤ := [90, -90, 180, 270]

/-- JavaScript rotateVideo (src/index.js): inputPath must be a nonempty
string, the angle must be in validAngles, and only then is the native
rotateVideo invoked. -/
def jsRotateVideo (pathOk : Bool) (angle : ℤ) : JsRotate :=
  if pathOk = false then .errInvalidPath
  else if ¬ (angle ∈ validAngles) then .errInvalidAngle
  else .nativeCall angle

/-- Compressed media sample: presentation timestamp, sample flags, and byte
size (the payload itself is irrelevant to the properties proved here). -/
structure AVSample where
  pts : ℤ
  flags : ℤ
  size : ℕ
deriving DecidableEq, Repr

/-- MediaMuxer state: how many tracks were added, whether start() has been
called, and the written samples as (track index, sample) in write order. -/
structure Muxer where
  trackCount : ℕ
  started : Bool
  written : List (ℕ × AVSample)
deriving DecidableEq, Repr

/-- Fresh muxer, as constructed before the processing loop. -/
def Muxer.new : Muxer := ⟨0, false, []⟩

/-- MediaMuxer.addTrack: returns the new track's index. -/
def Muxer.addTrack (m : Muxer) : Muxer × ℕ :=
  ({ m with trackCount := m.trackCount + 1 }, m.trackCount)

/-- MediaMuxer.start. -/
def Muxer.start (m : Muxer) : Muxer := { m with started := true }

/-- MediaMuxer.writeSampleData.  Per the MediaMuxer contract (which the
video loop's own muxerStarted guard mirrors), writing before start() throws
IllegalStateException; that is modelled as an error result. -/
def Muxer.writeSampleData (m : Muxer) (track : ℕ) (s : AVSample) : Except String Muxer :=
  if m.started then .ok { m with written := m.written ++ [(track, s)] }
  else .error "writeSampleData before start"

/-- Observable muxer events of one pipeline run, in order. -/
inductive MuxEv where
  | addVideoTrack
  | addAudioTrack
  | muxerStart
  | writeVideo (s : AVSample)
  | writeAudio (s : AVSample)
deriving DecidableEq, Repr

/-- Outcome of one encoder dequeueOutputBuffer in the loop: either
INFO_OUTPUT_FORMAT_CHANGED, or a drained output buffer carrying a sample
(size may be 0) and possibly the end-of-stream flag. -/
inductive EncEvent where
  | formatChanged
  | outputBuffer (s : AVSample) (eos : Bool)
deriving DecidableEq, Repr

/-- Mutable state of the processVideoWithGL loop that concerns the muxer:
the muxer itself, videoMuxerTrack and audioMuxerTrack (both initialized to
-1; audioMuxerTrack is never assigned anywhere in processVideoWithGL),
muxerStarted, the encoderDone flag, and the event trace. -/
structure LoopState where
  muxer : Muxer
  videoMuxerTrack : ℤ
  audioMuxerTrack : ℤ
  muxerStarted : Bool
  encoderDone : Bool
  trace : List MuxEv
deriving DecidableEq, Repr

/-- Loop state before the first iteration. -/
def LoopState.init : LoopState := ⟨Muxer.new, -1, -1, false, false, []⟩

/-- Encoder-drain branch of the processVideoWithGL loop (the `when` on
`encoder.dequeueOutputBuffer`): on INFO_OUTPUT_FORMAT_CHANGED the video
track is added and the muxer is started only if
`audioFormat == null || audioMuxerTrack != -1`; on a drained buffer the
sample is written only when `size > 0 && muxerStarted`, and the
end-of-stream flag finishes the loop. -/
def encDrainStep (audioPresent : Bool) (st : LoopState) (e : EncEvent) : LoopState :=
  match e with
  | .formatChanged =>
    let added := st.muxer.addTrack
    let st1 :=
      { st with
        muxer := added.1
        videoMuxerTrack := (added.2 : ℤ)
        trace := st.trace ++ [.addVideoTrack] }
    if audioPresent = false ∨ st1.audioMuxerTrack ≠ -1 then
      { st1 with
        muxer := st1.muxer.start
        muxerStarted := true
        trace := st1.trace ++ [.muxerStart] }
    else st1
  | .outputBuffer s eos =>
    let st1 :=
      if 0 < s.size ∧ st.muxerStarted then
        match st.muxer.writeSampleData st.videoMuxerTrack.toNat s with
        | .ok m => { st with muxer := m, trace := st.trace ++ [.writeVideo s] }
        | .error _ => st
      else st
    if eos then { st1 with encoderDone := true } else st1

/-- Whole video loop of processVideoWithGL, abstracted over the script of
encoder outcomes the codec produces. -/
def encDrainRun (audioPresent : Bool) (script : List EncEvent) : LoopState :=
  script.foldl (encDrainStep audioPresent) LoopState.init

/-- While-loop body of processAudioTrack: read samples in extractor order
and write each to the muxer with its timestamp and flags preserved; the
first write failure aborts (the exception propagates to the catch block). -/
def writeAudioLoop (track : ℕ) (m : Muxer) :
    List AVSample → Except String Muxer × List MuxEv
  | [] => (.ok m, [])
  | s :: rest =>
    match Muxer.writeSampleData m track s with
    | .ok m1 =>
      let r := writeAudioLoop track m1 rest
      (r.1, .writeAudio s :: r.2)
    | .error e => (.error e, [])

/-- processAudioTrack (VideoTransformerModule.kt): select the audio track,
add it to the muxer, then passthrough-copy every sample. -/
def processAudioTrack (m : Muxer) (samples : List AVSample) :
    Except String Muxer × List MuxEv :=
  let added := m.addTrack
  let r := writeAudioLoop added.2 added.1 samples
  (r.1, .addAudioTrack :: r.2)

/-- processVideoWithGL, muxer-relevant behavior: run the video loop, then,
if an audio track exists, run processAudioTrack; an exception anywhere is
caught and surfaced as PROCESSING_ERROR. -/
def processVideoWithGL (audioPresent : Bool) (script : List EncEvent)
    (audioSamples : List AVSample) : Except String Muxer × List MuxEv :=
  let st := encDrainRun audioPresent script
  if audioPresent then
    let r := processAudioTrack st.muxer audioSamples
    match r.1 with
    | .ok m => (.ok m, st.trace ++ r.2)
    | .error _ => (.error "PROCESSING_ERROR", st.trace ++ r.2)
  else (.ok st.muxer, st.trace)

/-- Flags accumulated while checking a muxer event trace: whether the video
track was added, the audio track was added, and the muxer was started. -/
structure TraceFlags where
  videoAdded : Bool
  audioAdded : Bool
  started : Bool
deriving DecidableEq, Repr

/-- Temporal checker for a muxer event trace: a video sample may be written
only after muxerStart, and muxerStart may occur only after addVideoTrack
and, when an audio track exists, only after addAudioTrack.  Returns none on
a violation, otherwise the final flags. -/
def traceScan (audioPresent : Bool) : TraceFlags → List MuxEv → Option TraceFlags
  | f, [] => some f
  | f, e :: rest =>
    match e with
    | .addVideoTrack => traceScan audioPresent { f with videoAdded := true } rest
    | .addAudioTrack => traceScan audioPresent { f with audioAdded := true } rest
    | .muxerStart =>
      if f.videoAdded = true ∧ (audioPresent = false ∨ f.audioAdded = true) then
        traceScan audioPresent { f with started := true } rest
      else none
    | .writeVideo _ => if f.started = true then traceScan audioPresent f rest else none
    | .writeAudio _ => traceScan audioPresent f rest

/-- Initial checker flags. -/
def TraceFlags.init : TraceFlags := ⟨false, false, false⟩

/-- C1: for every frame of natural size (W,H), the rotation-only transform
calculation returns: for angle 90 the transform "translate by (H,0) then
rotate +90" with render size (H,W); for angle -90 or 270 "translate by
(0,W) then rotate -90" with render size (H,W); for angle 180 "translate by
(W,H) then rotate 180" with render size (W,H); and for any other angle the
identity transform with render size (W,H).  Each composite is also
evaluated to its explicit matrix. -/
theorem c1_rotation_only_transform (W H : ℚ) (angle : ℤ) :
    (angle = 90 →
      rotateVideoRender angle W H =
        { transform := (CGAffine.translationBy H 0).rotatedBy 0 1,
          renderWidth := H, renderHeight := W } ∧
      (rotateVideoRender angle W H).transform = ⟨0, 1, -1, 0, H, 0⟩) ∧
    ((angle = -90 ∨ angle = 270) →
      rotateVideoRender angle W H =
        { transform := (CGAffine.translationBy 0 W).rotatedBy 0 (-1),
          renderWidth := H, renderHeight := W } ∧
      (rotateVideoRender angle W H).transform = ⟨0, -1, 1, 0, 0, W⟩) ∧
    (angle = 180 →
      rotateVideoRender angle W H =
        { transform := (CGAffine.translationBy W H).rotatedBy (-1) 0,
          renderWidth := W, renderHeight := H } ∧
      (rotateVideoRender angle W H).transform = ⟨-1, 0, 0, -1, W, H⟩) ∧
    (angle ≠ 90 → angle ≠ -90 → angle ≠ 270 → angle ≠ 180 →
      rotateVideoRender angle W H =
        { transform := CGAffine.id0, renderWidth := W, renderHeight := H }) := by
  refine ⟨?_, ?_, ?_, ?_⟩
  · intro h
    subst h
    constructor
    · rfl
    · simp [rotateVideoRender, CGAffine.rotatedBy, CGAffine.concatenating,
        CGAffine.rotation, CGAffine.translationBy]
  · rintro (h | h) <;> subst h <;> constructor <;>
      simp [rotateVideoRender, CGAffine.rotatedBy, CGAffine.concatenating,
        CGAffine.rotation, CGAffine.translationBy]
  · intro h
    subst h
    constructor
    · rfl
    · simp [rotateVideoRender, CGAffine.rotatedBy, CGAffine.concatenating,
        CGAffine.rotation, CGAffine.translationBy]
  · intro h1 h2 h3 h4
    simp [rotateVideoRender, h1, h2, h3, h4]

/-- Witness for C1 at a concrete frame and angle. -/
theorem c1_rotation_only_transform_witness :
    rotateVideoRender 90 1920 1080 =
      { transform := (CGAffine.translationBy 1080 0).rotatedBy 0 1,
        renderWidth := 1080, renderHeight := 1920 } ∧
    (rotateVideoRender 90 1920 1080).transform = ⟨0, 1, -1, 0, 1080, 0⟩ :=
  (c1_rotation_only_transform 1920 1080 90).1 rfl

/-- C10: the transform iOS rotateVideo attaches to the layer instruction is
exactly the freshly computed rotation matrix; the track's preferredTransform
is discarded (the result is independent of it), not composed with the
rotation — composing a baked-in 90-degree orientation with the fresh
rotation would give a different matrix. -/
theorem c10_rotate_ignores_preferred (W H : ℚ) (pre pre2 : CGAffine) (angle : ℤ) :
    rotateVideoLayerTransform ⟨W, H, pre⟩ angle = (rotateVideoRender angle W H).transform ∧
    rotateVideoLayerTransform ⟨W, H, pre⟩ angle = rotateVideoLayerTransform ⟨W, H, pre2⟩ angle ∧
    (CGAffine.rotation 0 1).concatenating
        (rotateVideoLayerTransform ⟨1920, 1080, CGAffine.rotation 0 1⟩ 90) ≠
      rotateVideoLayerTransform ⟨1920, 1080, CGAffine.rotation 0 1⟩ 90 := by
  refine ⟨rfl, rfl, ?_⟩
  simp [rotateVideoLayerTransform, rotateVideoRender, CGAffine.rotatedBy,
    CGAffine.concatenating, CGAffine.rotation, CGAffine.translationBy, CGAffine.mk.injEq]

/-- C2: in cropVideo, display dimensions are the natural dimensions swapped
exactly when the pre-existing transform's rotation angle is within 0.01
radians of plus or minus 90 degrees; then if the target ratio exceeds the
display aspect the crop keeps the full display width and sets the display
crop height to displayWidth / target, otherwise it keeps the full display
height and sets the display crop width to displayHeight * target; and the
natural-space crop dimensions are the display-space ones swapped again
exactly when rotated.  `isRot` is the boolean the source computes; the
hypothesis ties it to the detection predicate. -/
theorem c2_crop_display_space (pre : CGAffine) (isRot : Bool) (W H target : ℚ)
    (position : String) (hdet : isRot = true ↔ isRotatedDetect pre) :
    (isRotatedDetect pre →
      (cropVideoGeom W H pre isRot target position).displayWidth = H ∧
      (cropVideoGeom W H pre isRot target position).displayHeight = W) ∧
    (¬ isRotatedDetect pre →
      (cropVideoGeom W H pre isRot target position).displayWidth = W ∧
      (cropVideoGeom W H pre isRot target position).displayHeight = H) ∧
    (target > (cropVideoGeom W H pre isRot target position).displayWidth /
        (cropVideoGeom W H pre isRot target position).displayHeight →
      (cropVideoGeom W H pre isRot target position).cropDisplayWidth =
        (cropVideoGeom W H pre isRot target position).displayWidth ∧
      (cropVideoGeom W H pre isRot target position).cropDisplayHeight =
        (cropVideoGeom W H pre isRot target position).displayWidth / target) ∧
    (¬ target > (cropVideoGeom W H pre isRot target position).displayWidth /
        (cropVideoGeom W H pre isRot target position).displayHeight →
      (cropVideoGeom W H pre isRot target position).cropDisplayHeight =
        (cropVideoGeom W H pre isRot target position).displayHeight ∧
      (cropVideoGeom W H pre isRot target position).cropDisplayWidth =
        (cropVideoGeom W H pre isRot target position).displayHeight * target) ∧
    (isRotatedDetect pre →
      (cropVideoGeom W H pre isRot target position).cropWidth =
        (cropVideoGeom W H pre isRot target position).cropDisplayHeight ∧
      (cropVideoGeom W H pre isRot target position).cropHeight =
        (cropVideoGeom W H pre isRot target position).cropDisplayWidth) ∧
    (¬ isRotatedDetect pre →
      (cropVideoGeom W H pre isRot target position).cropWidth =
        (cropVideoGeom W H pre isRot target position).cropDisplayWidth ∧
      (cropVideoGeom W H pre isRot target position).cropHeight =
        (cropVideoGeom W H pre isRot target position).cropDisplayHeight) := by
  cases isRot
  case false =>
    have hnd : ¬ isRotatedDetect pre := by
      intro hd
      exact Bool.false_ne_true (hdet.mpr hd)
    refine ⟨fun hd => absurd hd hnd, fun _ => ⟨rfl, rfl⟩, ?_, ?_,
      fun hd => absurd hd hnd, fun _ => ?_⟩
    · intro hb
      simp only [cropVideoGeom, Bool.false_eq_true, if_false] at hb ⊢
      rw [if_pos hb, if_pos hb]
      exact ⟨rfl, rfl⟩
    · intro hb
      simp only [cropVideoGeom, Bool.false_eq_true, if_false] at hb ⊢
      rw [if_neg hb, if_neg hb]
      exact ⟨rfl, rfl⟩
    · exact ⟨rfl, rfl⟩
  case true =>
    have hd : isRotatedDetect pre := hdet.mp rfl
    refine ⟨fun _ => ⟨rfl, rfl⟩, fun hnd => absurd hd hnd, ?_, ?_,
      fun _ => ⟨rfl, rfl⟩, fun hnd => absurd hd hnd⟩
    · intro hb
      simp only [cropVideoGeom, if_true] at hb ⊢
      rw [if_pos hb, if_pos hb]
      exact ⟨rfl, rfl⟩
    · intro hb
      simp only [cropVideoGeom, if_true] at hb ⊢
      rw [if_neg hb, if_neg hb]
      exact ⟨rfl, rfl⟩

/-- Witness for C2 at a concrete rotated track: the preferred transform is
an exact 90-degree rotation, whose angle is within the 0.01 tolerance. -/
theorem c2_crop_display_space_witness :
    ((true = true) ↔ isRotatedDetect (CGAffine.rotation 0 1)) ∧
    ((cropVideoGeom 1920 1080 (CGAffine.rotation 0 1) true (16 / 9) "center").displayWidth
        = 1080 ∧
      (cropVideoGeom 1920 1080 (CGAffine.rotation 0 1) true (16 / 9) "center").displayHeight
        = 1920) := by
  have harg : rotAngleOf (CGAffine.rotation 0 1) = Real.pi / 2 := by
    have hI : (⟨(((0 : ℚ)) : ℝ), (((1 : ℚ)) : ℝ)⟩ : ℂ) = Complex.I := by
      simp [Complex.ext_iff]
    rw [rotAngleOf]
    show Complex.arg ⟨(((0 : ℚ)) : ℝ), (((1 : ℚ)) : ℝ)⟩ = Real.pi / 2
    rw [hI, Complex.arg_I]
  have hdet : isRotatedDetect (CGAffine.rotation 0 1) := by
    left
    rw [harg]
    norm_num
  refine ⟨iff_of_true rfl hdet, ?_⟩
  exact ((c2_crop_display_space (CGAffine.rotation 0 1) true 1920 1080 (16 / 9) "center"
    (iff_of_true rfl hdet)).1 hdet)

/-- C5: in cropAndRotateVideo the rotation transform and final render size
are exactly the rotation-only calculation applied to the cropped display
dimensions (not the natural frame), the crop is attached as a hard crop
rectangle on the layer instruction while the instruction transform is just
preferredTransform concatenated with the rotation (no crop folded in), and
for natural size (1920,1080), aspect ratio 1:1 (as parsed from the string),
angle 90 the final render size is 1080 by 1080. -/
theorem c5_rotation_uses_cropped_dims (W H : ℚ) (pre : CGAffine) (isRot : Bool)
    (target : ℚ) (position : String) (angle : ℤ) :
    (cropAndRotateGeom W H pre isRot target position angle).rotationTransform =
      (rotateVideoRender angle
        (cropAndRotateGeom W H pre isRot target position angle).cropDisplayWidth
        (cropAndRotateGeom W H pre isRot target position angle).cropDisplayHeight).transform ∧
    (cropAndRotateGeom W H pre isRot target position angle).finalRenderWidth =
      (rotateVideoRender angle
        (cropAndRotateGeom W H pre isRot target position angle).cropDisplayWidth
        (cropAndRotateGeom W H pre isRot target position angle).cropDisplayHeight).renderWidth ∧
    (cropAndRotateGeom W H pre isRot target position angle).finalRenderHeight =
      (rotateVideoRender angle
        (cropAndRotateGeom W H pre isRot target position angle).cropDisplayWidth
        (cropAndRotateGeom W H pre isRot target position angle).cropDisplayHeight).renderHeight ∧
    (cropAndRotateGeom W H pre isRot target position angle).layer.cropRectangle =
      some (cropAndRotateGeom W H pre isRot target position angle).cropRect ∧
    (cropAndRotateGeom W H pre isRot target position angle).layer.transform =
      pre.concatenating
        (cropAndRotateGeom W H pre isRot target position angle).rotationTransform ∧
    swiftParseAspect "1:1" = some 1 ∧
    (cropAndRotateGeom 1920 1080 CGAffine.id0 false 1 "center" 90).finalRenderWidth = 1080 ∧
    (cropAndRotateGeom 1920 1080 CGAffine.id0 false 1 "center" 90).finalRenderHeight = 1080 := by
  refine ⟨?_, ?_, ?_, rfl, rfl, ?_, ?_, ?_⟩
  · by_cases h1 : angle = 90
    · simp [cropAndRotateGeom, rotateVideoRender, h1]
    · by_cases h2 : angle = -90 ∨ angle = 270
      · simp [cropAndRotateGeom, rotateVideoRender, h1, h2]
      · by_cases h3 : angle = 180
        · simp [cropAndRotateGeom, rotateVideoRender, h1, h2, h3]
        · simp [cropAndRotateGeom, rotateVideoRender, h1, h2, h3, CGAffine.id0]
  · by_cases h1 : angle = 90
    · simp [cropAndRotateGeom, rotateVideoRender, h1]
    · by_cases h2 : angle = -90 ∨ angle = 270
      · simp [cropAndRotateGeom, rotateVideoRender, h1, h2]
      · by_cases h3 : angle = 180
        · simp [cropAndRotateGeom, rotateVideoRender, h1, h2, h3]
        · simp [cropAndRotateGeom, rotateVideoRender, h1, h2, h3]
  · by_cases h1 : angle = 90
    · simp [cropAndRotateGeom, rotateVideoRender, h1]
    · by_cases h2 : angle = -90 ∨ angle = 270
      · simp [cropAndRotateGeom, rotateVideoRender, h1, h2]
      · by_cases h3 : angle = 180
        · simp [cropAndRotateGeom, rotateVideoRender, h1, h2, h3]
        · simp [cropAndRotateGeom, rotateVideoRender, h1, h2, h3]
  · have h1 : splitSwift "1:1" = [['1'], ['1']] := by decide
    have h2 : parseDecimal ['1'] = some ((1 : ℕ) : ℚ) := rfl
    simp only [swiftParseAspect, h1, h2]
    norm_num
  · norm_num [cropAndRotateGeom]
  · norm_num [cropAndRotateGeom]

/-- Truncation toward zero agrees with the floor on nonnegative rationals. -/
theorem truncToInt_eq_floor (q : ℚ) (h : 0 ≤ q) : truncToInt q = ⌊q⌋ := by
  unfold truncToInt
  rw [Int.tdiv_eq_ediv (Rat.num_nonneg.mpr h) (Int.natCast_nonneg q.den), Rat.floor_def]

/-- Truncation of a nonnegative rational is nonnegative. -/
theorem truncToInt_nonneg (q : ℚ) (h : 0 ≤ q) : 0 ≤ truncToInt q := by
  rw [truncToInt_eq_floor q h]
  exact Int.floor_nonneg.mpr h

/-- Truncation of a nonnegative rational below an integer bound stays below
that bound. -/
theorem truncToInt_le_cast (q : ℚ) (h0 : 0 ≤ q) (B : ℤ) (h : q ≤ (B : ℚ)) :
    truncToInt q ≤ B := by
  rw [truncToInt_eq_floor q h0]
  calc ⌊q⌋ ≤ ⌊(B : ℚ)⌋ := Int.floor_le_floor h
    _ = B := Int.floor_intCast B

/-- Nonnegative halves via truncating division. -/
theorem tdiv2_nonneg {d : ℤ} (h : 0 ≤ d) : 0 ≤ Int.tdiv d 2 :=
  Int.tdiv_nonneg h (by norm_num)

/-- A truncated half of a nonnegative integer never exceeds it. -/
theorem tdiv2_le {d : ℤ} (h : 0 ≤ d) : Int.tdiv d 2 ≤ d := by
  rw [Int.tdiv_eq_ediv h (by norm_num)]
  exact Int.ediv_le_self 2 h

/-- Every branch of the nine-anchor rational switch keeps the crop origin in
bounds when the crop dimensions fit inside the frame. -/
theorem anchorQ_bounds (p : String) (W H cw ch : ℚ) (h1 : 0 ≤ cw) (h2 : cw ≤ W)
    (h3 : 0 ≤ ch) (h4 : ch ≤ H) :
    0 ≤ (anchorOffsetsQ p W H cw ch).1 ∧ (anchorOffsetsQ p W H cw ch).1 + cw ≤ W ∧
      0 ≤ (anchorOffsetsQ p W H cw ch).2 ∧ (anchorOffsetsQ p W H cw ch).2 + ch ≤ H := by
  unfold anchorOffsetsQ
  split <;> (try dsimp only) <;>
    exact ⟨by linarith, by linarith, by linarith, by linarith⟩

/-- Every branch of the nine-anchor integer switch keeps the crop origin in
bounds when the crop dimensions fit inside the frame. -/
theorem anchorZ_bounds (p : String) (vw vh cw ch : ℤ) (h1 : 0 ≤ cw) (h2 : cw ≤ vw)
    (h3 : 0 ≤ ch) (h4 : ch ≤ vh) :
    0 ≤ (anchorOffsetsZ p vw vh cw ch).1 ∧ (anchorOffsetsZ p vw vh cw ch).1 + cw ≤ vw ∧
      0 ≤ (anchorOffsetsZ p vw vh cw ch).2 ∧ (anchorOffsetsZ p vw vh cw ch).2 + ch ≤ vh := by
  have e1 : Int.tdiv (vw - cw) 2 = (vw - cw) / 2 := Int.tdiv_eq_ediv (by omega) (by norm_num)
  have e2 : Int.tdiv (vh - ch) 2 = (vh - ch) / 2 := Int.tdiv_eq_ediv (by omega) (by norm_num)
  unfold anchorOffsetsZ
  split <;> (try dsimp only) <;> (try simp only [e1, e2]) <;>
    exact ⟨by omega, by omega, by omega, by omega⟩

/-- Positions other than center, top and bottom fall into the default case
of the crop-and-rotate anchor switch, which yields the center offsets. -/
theorem anchorLimited_default (p : String) (W H cw ch : ℚ)
    (h1 : lowercased p ≠ "center") (h2 : lowercased p ≠ "top")
    (h3 : lowercased p ≠ "bottom") :
    anchorOffsetsLimited p W H cw ch = ((W - cw) / 2, (H - ch) / 2) := by
  unfold anchorOffsetsLimited
  split
  · exact absurd (by assumption) h1
  · exact absurd (by assumption) h2
  · exact absurd (by assumption) h3
  · rfl

/-- Crop dimensions chosen by the shared ratio comparison stay inside the
display frame. -/
theorem crop_pair_bounds (dW dH t : ℚ) (hdW : 0 < dW) (hdH : 0 < dH) (ht : 0 < t) :
    (0 < (if t > dW / dH then dW else dH * t) ∧ (if t > dW / dH then dW else dH * t) ≤ dW) ∧
      (0 < (if t > dW / dH then dW / t else dH) ∧
        (if t > dW / dH then dW / t else dH) ≤ dH) := by
  by_cases hb : t > dW / dH
  · rw [if_pos hb, if_pos hb]
    have h2 : dW < t * dH := (div_lt_iff₀ hdH).mp hb
    refine ⟨⟨hdW, le_refl dW⟩, div_pos hdW ht, le_of_lt ((div_lt_iff₀ ht).mpr ?_)⟩
    linarith [h2]
  · rw [if_neg hb, if_neg hb]
    push_neg at hb
    have h2 : t * dH ≤ dW := (le_div_iff₀ hdH).mp hb
    refine ⟨⟨mul_pos hdH ht, ?_⟩, hdH, le_refl dH⟩
    linarith [h2]

/-- Crop dimensions chosen by the shared ratio comparison realize the target
ratio exactly in display space. -/
theorem crop_pair_ratio (dW dH t : ℚ) (hdW : 0 < dW) (hdH : 0 < dH) (ht : 0 < t) :
    (if t > dW / dH then dW else dH * t) / (if t > dW / dH then dW / t else dH) = t := by
  by_cases hb : t > dW / dH
  · rw [if_pos hb, if_pos hb, div_div_eq_mul_div, mul_div_cancel_left₀ t (ne_of_gt hdW)]
  · rw [if_neg hb, if_neg hb, mul_div_cancel_left₀ t (ne_of_gt hdH)]

/-- Amended C3: for positive frame dimensions and a positive target ratio,
the derived crop rectangle always satisfies 0 ≤ x, x + width ≤ naturalWidth,
0 ≤ y, y + height ≤ naturalHeight on both implementations; on iOS the
display-space crop ratio equals the target exactly, while on Android the
crop dimensions are truncated to whole pixels, so the ratio only matches up
to that truncation (see the counterexample). -/
theorem c3_croprect_invariants :
    (∀ (W H t : ℚ) (pre : CGAffine) (isRot : Bool) (position : String),
      0 < W → 0 < H → 0 < t →
      0 ≤ (cropVideoGeom W H pre isRot t position).cropX ∧
      (cropVideoGeom W H pre isRot t position).cropX +
          (cropVideoGeom W H pre isRot t position).cropWidth ≤ W ∧
      0 ≤ (cropVideoGeom W H pre isRot t position).cropY ∧
      (cropVideoGeom W H pre isRot t position).cropY +
          (cropVideoGeom W H pre isRot t position).cropHeight ≤ H ∧
      (cropVideoGeom W H pre isRot t position).cropDisplayWidth /
          (cropVideoGeom W H pre isRot t position).cropDisplayHeight = t) ∧
    (∀ (vw vh : ℤ) (t : ℚ) (position : String),
      0 < vw → 0 < vh → 0 < t →
      0 ≤ (calculateCropRect vw vh t position).x ∧
      (calculateCropRect vw vh t position).x + (calculateCropRect vw vh t position).width ≤ vw ∧
      0 ≤ (calculateCropRect vw vh t position).y ∧
      (calculateCropRect vw vh t position).y + (calculateCropRect vw vh t position).height ≤ vh) := by
  constructor
  · intro W H t pre isRot position hW hH ht
    cases isRot
    case false =>
      have hb := crop_pair_bounds W H t hW hH ht
      have hr := crop_pair_ratio W H t hW hH ht
      have ha := anchorQ_bounds position W H
        (if t > W / H then W else H * t) (if t > W / H then W / t else H)
        (le_of_lt hb.1.1) hb.1.2 (le_of_lt hb.2.1) hb.2.2
      simp only [cropVideoGeom, Bool.false_eq_true, if_false]
      exact ⟨ha.1, ha.2.1, ha.2.2.1, ha.2.2.2, hr⟩
    case true =>
      have hb := crop_pair_bounds H W t hH hW ht
      have hr := crop_pair_ratio H W t hH hW ht
      have ha := anchorQ_bounds position W H
        (if t > H / W then H / t else W) (if t > H / W then H else W * t)
        (le_of_lt hb.2.1) hb.2.2 (le_of_lt hb.1.1) hb.1.2
      simp only [cropVideoGeom, if_true]
      exact ⟨ha.1, ha.2.1, ha.2.2.1, ha.2.2.2, hr⟩
  · intro vw vh t position hvw hvh ht
    have hvwQ : (0 : ℚ) < (vw : ℚ) := by exact_mod_cast hvw
    have hvhQ : (0 : ℚ) < (vh : ℚ) := by exact_mod_cast hvh
    by_cases hb : t > (vw : ℚ) / (vh : ℚ)
    · have hch0 : (0 : ℚ) ≤ (vw : ℚ) / t := le_of_lt (div_pos hvwQ ht)
      have hchB : (vw : ℚ) / t ≤ (vh : ℚ) := by
        have h2 : (vw : ℚ) < t * (vh : ℚ) := (div_lt_iff₀ hvhQ).mp hb
        exact le_of_lt ((div_lt_iff₀ ht).mpr (by linarith))
      have ha := anchorZ_bounds position vw vh vw (truncToInt ((vw : ℚ) / t))
        (le_of_lt hvw) (le_refl vw)
        (truncToInt_nonneg _ hch0) (truncToInt_le_cast _ hch0 vh hchB)
      simp only [calculateCropRect, if_pos hb]
      exact ⟨ha.1, ha.2.1, ha.2.2.1, ha.2.2.2⟩
    · have hcw0 : (0 : ℚ) ≤ (vh : ℚ) * t := le_of_lt (mul_pos hvhQ ht)
      have hcwB : (vh : ℚ) * t ≤ (vw : ℚ) := by
        push_neg at hb
        have h2 : t * (vh : ℚ) ≤ (vw : ℚ) := (le_div_iff₀ hvhQ).mp hb
        linarith
      have ha := anchorZ_bounds position vw vh (truncToInt ((vh : ℚ) * t)) vh
        (truncToInt_nonneg _ hcw0) (truncToInt_le_cast _ hcw0 vw hcwB)
        (le_of_lt hvh) (le_refl vh)
      simp only [calculateCropRect, if_neg hb]
      exact ⟨ha.1, ha.2.1, ha.2.2.1, ha.2.2.2⟩

/-- Witness for the amended C3 at concrete inputs. -/
theorem c3_croprect_invariants_witness :
    ((0 : ℚ) < 1920 ∧ (0 : ℚ) < 1080 ∧ (0 : ℚ) < 16 / 9 ∧
      (0 : ℤ) < 1920 ∧ (0 : ℤ) < 1080) ∧
    (0 ≤ (cropVideoGeom 1920 1080 CGAffine.id0 false (16 / 9) "top").cropX ∧
      (cropVideoGeom 1920 1080 CGAffine.id0 false (16 / 9) "top").cropX +
          (cropVideoGeom 1920 1080 CGAffine.id0 false (16 / 9) "top").cropWidth ≤ 1920 ∧
      0 ≤ (cropVideoGeom 1920 1080 CGAffine.id0 false (16 / 9) "top").cropY ∧
      (cropVideoGeom 1920 1080 CGAffine.id0 false (16 / 9) "top").cropY +
          (cropVideoGeom 1920 1080 CGAffine.id0 false (16 / 9) "top").cropHeight ≤ 1080 ∧
      (cropVideoGeom 1920 1080 CGAffine.id0 false (16 / 9) "top").cropDisplayWidth /
          (cropVideoGeom 1920 1080 CGAffine.id0 false (16 / 9) "top").cropDisplayHeight
            = 16 / 9) ∧
    (0 ≤ (calculateCropRect 1920 1080 (16 / 9) "top").x ∧
      (calculateCropRect 1920 1080 (16 / 9) "top").x +
          (calculateCropRect 1920 1080 (16 / 9) "top").width ≤ 1920 ∧
      0 ≤ (calculateCropRect 1920 1080 (16 / 9) "top").y ∧
      (calculateCropRect 1920 1080 (16 / 9) "top").y +
          (calculateCropRect 1920 1080 (16 / 9) "top").height ≤ 1080) :=
  ⟨⟨by norm_num, by norm_num, by norm_num, by norm_num, by norm_num⟩,
    c3_croprect_invariants.1 1920 1080 (16 / 9) CGAffine.id0 false "top"
      (by norm_num) (by norm_num) (by norm_num),
    c3_croprect_invariants.2 1920 1080 (16 / 9) "top"
      (by norm_num) (by norm_num) (by norm_num)⟩

/-- Counterexample to C3 as stated: on Android, a 2 by 2 frame with target
ratio 3:4 yields a 1 by 2 crop, whose ratio 1/2 misses the target 3/4 by a
quarter — far outside any floating-point tolerance (the spec's own angle
tolerance is 0.01). -/
theorem c3_counterexample :
    calculateCropRect 2 2 (3 / 4) "center" = ⟨0, 0, 1, 2⟩ ∧
    (((calculateCropRect 2 2 (3 / 4) "center").width : ℚ) /
        ((calculateCropRect 2 2 (3 / 4) "center").height : ℚ) = 1 / 2) ∧
    ¬ |(1 / 2 : ℚ) - 3 / 4| < 1 / 100 := by
  have hcw : truncToInt (((2 : ℤ) : ℚ) * (3 / 4)) = 1 := by
    rw [show (((2 : ℤ) : ℚ) * (3 / 4)) = 3 / 2 by norm_num]
    rw [truncToInt_eq_floor _ (by norm_num)]
    norm_num
  have hanch : anchorOffsetsZ "center" 2 2 1 2 = (0, 0) := by decide
  have hcond : ¬ ((3 : ℚ) / 4 > ((2 : ℤ) : ℚ) / ((2 : ℤ) : ℚ)) := by norm_num
  have hrect : calculateCropRect 2 2 (3 / 4) "center" = ⟨0, 0, 1, 2⟩ := by
    simp only [calculateCropRect, CropRectZ.mk.injEq]
    rw [if_neg hcond, if_neg hcond, hcw, hanch]
    exact ⟨rfl, rfl, rfl, rfl⟩
  refine ⟨hrect, ?_, by rw [abs_of_nonpos (by norm_num)]; norm_num⟩
  rw [hrect]
  norm_num

/-- Amended C4: for the crop operation (both implementations, all nine
anchors), anchor top-left yields origin (0,0), bottom-right yields
(naturalWidth - cropWidth, naturalHeight - cropHeight), and center yields
the halved offsets.  For crop-and-rotate the anchor switch only recognizes
center, top and bottom; any other anchor — including top-left and
bottom-right — falls into the default case and yields the center offsets. -/
theorem c4_anchor_offsets :
    (∀ (W H t : ℚ) (pre : CGAffine) (isRot : Bool),
      (cropVideoGeom W H pre isRot t "top-left").cropX = 0 ∧
      (cropVideoGeom W H pre isRot t "top-left").cropY = 0 ∧
      (cropVideoGeom W H pre isRot t "bottom-right").cropX =
        W - (cropVideoGeom W H pre isRot t "bottom-right").cropWidth ∧
      (cropVideoGeom W H pre isRot t "bottom-right").cropY =
        H - (cropVideoGeom W H pre isRot t "bottom-right").cropHeight ∧
      (cropVideoGeom W H pre isRot t "center").cropX =
        (W - (cropVideoGeom W H pre isRot t "center").cropWidth) / 2 ∧
      (cropVideoGeom W H pre isRot t "center").cropY =
        (H - (cropVideoGeom W H pre isRot t "center").cropHeight) / 2) ∧
    (∀ (vw vh : ℤ) (t : ℚ),
      (calculateCropRect vw vh t "top-left").x = 0 ∧
      (calculateCropRect vw vh t "top-left").y = 0 ∧
      (calculateCropRect vw vh t "bottom-right").x =
        vw - (calculateCropRect vw vh t "bottom-right").width ∧
      (calculateCropRect vw vh t "bottom-right").y =
        vh - (calculateCropRect vw vh t "bottom-right").height ∧
      (calculateCropRect vw vh t "center").x =
        Int.tdiv (vw - (calculateCropRect vw vh t "center").width) 2 ∧
      (calculateCropRect vw vh t "center").y =
        Int.tdiv (vh - (calculateCropRect vw vh t "center").height) 2) ∧
    (∀ (W H t : ℚ) (pre : CGAffine) (isRot : Bool) (angle : ℤ) (p : String),
      lowercased p ≠ "center" → lowercased p ≠ "top" → lowercased p ≠ "bottom" →
      (cropAndRotateGeom W H pre isRot t p angle).cropRect.x =
        (W - (cropAndRotateGeom W H pre isRot t p angle).cropRect.width) / 2 ∧
      (cropAndRotateGeom W H pre isRot t p angle).cropRect.y =
        (H - (cropAndRotateGeom W H pre isRot t p angle).cropRect.height) / 2) := by
  refine ⟨?_, ?_, ?_⟩
  · intro W H t pre isRot
    exact ⟨rfl, rfl, rfl, rfl, rfl, rfl⟩
  · intro vw vh t
    exact ⟨rfl, rfl, rfl, rfl, rfl, rfl⟩
  · intro W H t pre isRot angle p h1 h2 h3
    constructor
    · simp only [cropAndRotateGeom]
      rw [anchorLimited_default p W H _ _ h1 h2 h3]
    · simp only [cropAndRotateGeom]
      rw [anchorLimited_default p W H _ _ h1 h2 h3]

/-- Witness for the amended C4: the fallback clause applied to the top-left
anchor of a concrete crop-and-rotate call. -/
theorem c4_anchor_offsets_witness :
    (lowercased "top-left" ≠ "center" ∧ lowercased "top-left" ≠ "top" ∧
      lowercased "top-left" ≠ "bottom") ∧
    ((cropAndRotateGeom 1920 1080 CGAffine.id0 false 1 "top-left" 90).cropRect.x =
        (1920 - (cropAndRotateGeom 1920 1080 CGAffine.id0 false 1 "top-left" 90).cropRect.width)
          / 2 ∧
      (cropAndRotateGeom 1920 1080 CGAffine.id0 false 1 "top-left" 90).cropRect.y =
        (1080 - (cropAndRotateGeom 1920 1080 CGAffine.id0 false 1 "top-left" 90).cropRect.height)
          / 2) :=
  ⟨⟨by decide, by decide, by decide⟩,
    c4_anchor_offsets.2.2 1920 1080 1 CGAffine.id0 false 90 "top-left"
      (by decide) (by decide) (by decide)⟩

/-- Counterexample to C4 as stated: in crop-and-rotate, the anchor top-left
does not give origin (0,0) — on a 1920 by 1080 frame with a 1:1 ratio the
crop x offset is 420, the center value. -/
theorem c4_counterexample :
    (cropAndRotateGeom 1920 1080 CGAffine.id0 false 1 "top-left" 90).cropRect.x = 420 ∧
    (420 : ℚ) ≠ 0 := by
  constructor
  · simp only [cropAndRotateGeom]
    rw [anchorLimited_default "top-left" 1920 1080 _ _ (by decide) (by decide) (by decide)]
    norm_num
  · norm_num

/-- Checking a concatenated trace is checking the first part and continuing
with the flags it produces. -/
theorem traceScan_append (ap : Bool) (f : TraceFlags) (tr1 tr2 : List MuxEv) :
    traceScan ap f (tr1 ++ tr2) =
      (traceScan ap f tr1).bind (fun g => traceScan ap g tr2) := by
  induction tr1 generalizing f with
  | nil => rfl
  | cons e rest ih =>
    cases e with
    | addVideoTrack => simpa [traceScan] using ih _
    | addAudioTrack => simpa [traceScan] using ih _
    | muxerStart =>
      simp only [List.cons_append, traceScan]
      split
      · exact ih _
      · rfl
    | writeVideo s =>
      simp only [List.cons_append, traceScan]
      split
      · exact ih _
      · rfl
    | writeAudio s => simpa [traceScan] using ih _

/-- Invariant of the video loop: audioMuxerTrack is never assigned, the
muxerStarted flag mirrors the muxer's real started state, the muxer never
starts while an audio track exists, and the trace so far passes the
temporal checker with flags whose started bit is muxerStarted. -/
def LoopInv (ap : Bool) (st : LoopState) : Prop :=
  st.audioMuxerTrack = -1 ∧
  st.muxer.started = st.muxerStarted ∧
  (ap = true → st.muxerStarted = false) ∧
  ∃ f : TraceFlags,
    traceScan ap TraceFlags.init st.trace = some f ∧ f.started = st.muxerStarted ∧
    (∀ s : AVSample, MuxEv.writeAudio s ∉ st.trace)

/-- One encoder-drain step preserves the loop invariant. -/
theorem encDrainStep_inv (ap : Bool) (st : LoopState) (e : EncEvent)
    (h : LoopInv ap st) : LoopInv ap (encDrainStep ap st e) := by
  obtain ⟨hA, hM, hap, f, hscan, hfs, hnoaud⟩ := h
  cases e with
  | formatChanged =>
    cases ap with
    | false =>
      show LoopInv false (if _ ∨ _ then _ else _)
      rw [if_pos (Or.inl rfl)]
      refine ⟨hA, rfl, fun hh => absurd hh Bool.false_ne_true,
        ⟨{ f with videoAdded := true, started := true }, ?_, rfl, ?_⟩⟩
      · show traceScan false TraceFlags.init ((st.trace ++ [.addVideoTrack]) ++ [.muxerStart])
          = _
        rw [traceScan_append, traceScan_append, hscan]
        simp [traceScan]
      · intro s hs
        simp only [List.mem_append, List.mem_singleton] at hs
        rcases hs with (hs | hs) | hs
        · exact hnoaud s hs
        · exact MuxEv.noConfusion hs
        · exact MuxEv.noConfusion hs
    | true =>
      show LoopInv true (if _ ∨ _ then _ else _)
      rw [if_neg (by simp [hA])]
      refine ⟨hA, hM, hap, ⟨{ f with videoAdded := true }, ?_, hfs, ?_⟩⟩
      · show traceScan true TraceFlags.init (st.trace ++ [.addVideoTrack]) = _
        rw [traceScan_append, hscan]
        simp [traceScan]
      · intro s hs
        simp only [List.mem_append, List.mem_singleton] at hs
        rcases hs with hs | hs
        · exact hnoaud s hs
        · exact MuxEv.noConfusion hs
  | outputBuffer s eos =>
    have hcore : LoopInv ap
        (if 0 < s.size ∧ st.muxerStarted then
          match st.muxer.writeSampleData st.videoMuxerTrack.toNat s with
          | .ok m => { st with muxer := m, trace := st.trace ++ [.writeVideo s] }
          | .error _ => st
        else st) := by
      by_cases hw : 0 < s.size ∧ st.muxerStarted
      · rw [if_pos hw]
        have hstarted : st.muxer.started = true := by rw [hM]; exact hw.2
        rw [show st.muxer.writeSampleData st.videoMuxerTrack.toNat s =
          .ok { st.muxer with written := st.muxer.written ++ [(st.videoMuxerTrack.toNat, s)] }
          from by rw [Muxer.writeSampleData, if_pos hstarted]]
        refine ⟨hA, by simpa [Muxer.started] using hM, hap, ⟨f, ?_, hfs, ?_⟩⟩
        · show traceScan ap TraceFlags.init (st.trace ++ [.writeVideo s]) = _
          rw [traceScan_append, hscan]
          simp [traceScan, hfs, hw.2]
        · intro s2 hs
          simp only [List.mem_append, List.mem_singleton] at hs
          rcases hs with hs | hs
          · exact hnoaud s2 hs
          · exact MuxEv.noConfusion hs
      · rw [if_neg hw]
        exact ⟨hA, hM, hap, ⟨f, hscan, hfs, hnoaud⟩⟩
    show LoopInv ap (if eos = true then _ else _)
    cases eos with
    | false => simpa using hcore
    | true =>
      rw [if_pos rfl]
      obtain ⟨h1, h2, h3, f2, h4, h5, h6⟩ := hcore
      exact ⟨h1, h2, h3, f2, h4, h5, h6⟩

/-- The loop invariant holds after the whole video loop. -/
theorem encDrainRun_inv (ap : Bool) (script : List EncEvent) :
    LoopInv ap (encDrainRun ap script) := by
  have hgen : ∀ (l : List EncEvent) (st : LoopState), LoopInv ap st →
      LoopInv ap (List.foldl (encDrainStep ap) st l) := by
    intro l
    induction l with
    | nil => exact fun st h => h
    | cons e2 r2 ih2 => exact fun st h => ih2 _ (encDrainStep_inv ap st e2 h)
  exact hgen script LoopState.init
    ⟨rfl, rfl, fun _ => rfl, ⟨TraceFlags.init, rfl, rfl,
      fun s hs => (List.not_mem_nil _ hs).elim⟩⟩

/-- Every event the audio-copy loop records is a writeAudio event. -/
theorem writeAudioLoop_trace (track : ℕ) (m : Muxer) (samples : List AVSample) :
    ∀ e ∈ (writeAudioLoop track m samples).2, ∃ s, e = MuxEv.writeAudio s := by
  induction samples generalizing m with
  | nil => exact fun e he => (List.not_mem_nil _ he).elim
  | cons s rest ih =>
    intro e he
    simp only [writeAudioLoop] at he
    cases hw : Muxer.writeSampleData m track s with
    | ok m1 =>
      rw [hw] at he
      simp only [List.mem_cons] at he
      rcases he with he | he
      · exact ⟨s, he⟩
      · exact ih m1 e he
    | error err =>
      rw [hw] at he
      exact (List.not_mem_nil _ he).elim

/-- WriteAudio events pass the temporal checker without changing its flags. -/
theorem traceScan_allAudio (ap : Bool) (f : TraceFlags) (tr : List MuxEv)
    (h : ∀ e ∈ tr, ∃ s, e = MuxEv.writeAudio s) : traceScan ap f tr = some f := by
  induction tr with
  | nil => rfl
  | cons e rest ih =>
    obtain ⟨s, rfl⟩ := h e (List.mem_cons_self e rest)
    simp only [traceScan]
    exact ih (fun e2 he2 => h e2 (List.mem_cons_of_mem _ he2))

/-- Pipeline trace with audio present: the loop trace followed by the audio
pass trace, whether or not the audio pass fails. -/
theorem processVideoWithGL_trace (script : List EncEvent) (samples : List AVSample) :
    (processVideoWithGL true script samples).2 =
      (encDrainRun true script).trace ++
        (processAudioTrack (encDrainRun true script).muxer samples).2 := by
  unfold processVideoWithGL
  rw [if_pos rfl]
  dsimp only
  cases (processAudioTrack (encDrainRun true script).muxer samples).1 <;> rfl

/-- C6: for every script of encoder outcomes and every audio sample list,
the muxer event trace of the pipeline passes the temporal checker: no
encoded video sample is written before muxerStart, and muxerStart occurs
only after addVideoTrack and — when the source has an audio track — only
after addAudioTrack. -/
theorem c6_muxer_start_discipline (ap : Bool) (script : List EncEvent)
    (audioSamples : List AVSample) :
    (traceScan ap TraceFlags.init (processVideoWithGL ap script audioSamples).2).isSome
      = true := by
  obtain ⟨hA, hM, hap, f, hscan, hfs, hna⟩ := encDrainRun_inv ap script
  cases ap with
  | false =>
    show (traceScan false TraceFlags.init
      (processVideoWithGL false script audioSamples).2).isSome = true
    unfold processVideoWithGL
    rw [if_neg Bool.false_ne_true]
    rw [hscan]
    rfl
  | true =>
    rw [processVideoWithGL_trace]
    have hpa : (processAudioTrack (encDrainRun true script).muxer audioSamples).2 =
        MuxEv.addAudioTrack ::
          (writeAudioLoop (encDrainRun true script).muxer.trackCount
            ((encDrainRun true script).muxer.addTrack).1 audioSamples).2 := rfl
    rw [hpa, traceScan_append, hscan]
    show (traceScan true { f with audioAdded := true } _).isSome = true
    rw [traceScan_allAudio _ _ _ (writeAudioLoop_trace _ _ _)]
    rfl

/-- Audio passthrough on a muxer that was never started: the track is added,
but the very first writeSampleData throws, so no sample is copied. -/
theorem processAudioTrack_unstarted (m : Muxer) (hm : m.started = false)
    (s : AVSample) (rest : List AVSample) :
    processAudioTrack m (s :: rest)
      = (.error "writeSampleData before start", [MuxEv.addAudioTrack]) := by
  have hw : Muxer.writeSampleData (m.addTrack).1 (m.addTrack).2 s
      = .error "writeSampleData before start" := by
    unfold Muxer.writeSampleData
    rw [if_neg]
    intro hc
    rw [show (m.addTrack).1.started = m.started from rfl, hm] at hc
    exact Bool.false_ne_true hc
  unfold processAudioTrack writeAudioLoop
  dsimp only
  rw [hw]

/-- C9 on the failing inputs: with an audio track present the muxer is never
started during the video loop (its start condition needs audioMuxerTrack to
be already set, but the audio track is only added after the loop), so the
audio pass hits writeSampleData on an unstarted muxer, the job rejects with
PROCESSING_ERROR, and not a single audio sample is copied to the output;
all encoded video samples are dropped as well.  Shown concretely and for
every script and nonempty audio sample list. -/
theorem c9_audio_passthrough_broken :
    processVideoWithGL true
        [EncEvent.formatChanged, EncEvent.outputBuffer ⟨0, 1, 100⟩ false,
          EncEvent.outputBuffer ⟨100, 0, 0⟩ true] [⟨0, 1, 50⟩]
      = (.error "PROCESSING_ERROR", [MuxEv.addVideoTrack, MuxEv.addAudioTrack]) ∧
    (∀ (script : List EncEvent) (audioSamples : List AVSample), audioSamples ≠ [] →
      (processVideoWithGL true script audioSamples).1 = .error "PROCESSING_ERROR" ∧
      ∀ s : AVSample,
        MuxEv.writeAudio s ∉ (processVideoWithGL true script audioSamples).2) := by
  constructor
  · rfl
  · intro script samples hne
    obtain ⟨hA, hM, hap, f, hscan, hfs, hna⟩ := encDrainRun_inv true script
    have hstarted : (encDrainRun true script).muxer.started = false := by
      rw [hM]
      exact hap rfl
    cases samples with
    | nil => exact absurd rfl hne
    | cons s rest =>
      have hpa := processAudioTrack_unstarted (encDrainRun true script).muxer hstarted s rest
      constructor
      · unfold processVideoWithGL
        rw [if_pos rfl]
        dsimp only
        rw [hpa]
      · intro s2
        rw [processVideoWithGL_trace, hpa]
        intro hmem
        rcases List.mem_append.mp hmem with hmem | hmem
        · exact hna s2 hmem
        · rcases List.mem_singleton.mp hmem with h
          exact MuxEv.noConfusion h

/-- Witness for the universal part of the C9 theorem at the concrete failing
input. -/
theorem c9_audio_passthrough_broken_witness :
    ([(⟨0, 1, 50⟩ : AVSample)] ≠ []) ∧
    (processVideoWithGL true [EncEvent.formatChanged] [⟨0, 1, 50⟩]).1
      = .error "PROCESSING_ERROR" ∧
    ∀ s : AVSample,
      MuxEv.writeAudio s ∉ (processVideoWithGL true [EncEvent.formatChanged] [⟨0, 1, 50⟩]).2 :=
  ⟨by decide,
    (c9_audio_passthrough_broken.2 [EncEvent.formatChanged] [⟨0, 1, 50⟩] (by decide)).1,
    (c9_audio_passthrough_broken.2 [EncEvent.formatChanged] [⟨0, 1, 50⟩] (by decide)).2⟩

/-- Amended C7: an aspect-ratio string whose platform split does not give
exactly two parts that parse as decimal numbers is rejected with
INVALID_ASPECT_RATIO and no crop is computed — on Android before any track
of the source is touched, but on iOS only after the video-track lookup
(and on a file without a video track the iOS method reports NO_VIDEO_TRACK
instead); the sign of the parts is not checked. -/
theorem c7_invalid_aspect_rejected :
    (∀ (hasVideo : Bool) (aspect : String), kotlinParseAspect aspect = none →
      androidCropVideoTrace true hasVideo aspect = [.reject "INVALID_ASPECT_RATIO"]) ∧
    (∀ aspect : String, swiftParseAspect aspect = none →
      iosCropVideoTrace true true aspect = [.openTracks, .reject "INVALID_ASPECT_RATIO"]) ∧
    (∀ aspect : String, swiftParseAspect aspect = none →
      iosCropVideoTrace true false aspect = [.openTracks, .reject "NO_VIDEO_TRACK"]) := by
  refine ⟨?_, ?_, ?_⟩
  · intro hasVideo aspect h
    unfold androidCropVideoTrace
    rw [if_neg (by decide : ¬ (true = false)), h]
  · intro aspect h
    unfold iosCropVideoTrace
    rw [if_neg (by decide : ¬ (true = false)), if_neg (by decide : ¬ (true = false)), h]
  · intro aspect h
    unfold iosCropVideoTrace
    rw [if_neg (by decide : ¬ (true = false)), if_pos rfl]

/-- Witness for the amended C7 on the malformed strings named by the spec. -/
theorem c7_invalid_aspect_rejected_witness :
    (kotlinParseAspect "16" = none ∧ kotlinParseAspect "a:b" = none ∧
      kotlinParseAspect "16:9:1" = none ∧ swiftParseAspect "16" = none) ∧
    androidCropVideoTrace true true "16" = [.reject "INVALID_ASPECT_RATIO"] ∧
    iosCropVideoTrace true true "16" = [.openTracks, .reject "INVALID_ASPECT_RATIO"] ∧
    iosCropVideoTrace true false "16" = [.openTracks, .reject "NO_VIDEO_TRACK"] :=
  ⟨⟨by decide, by decide, by decide, by decide⟩,
    c7_invalid_aspect_rejected.1 true "16" (by decide),
    c7_invalid_aspect_rejected.2.1 "16" (by decide),
    c7_invalid_aspect_rejected.2.2 "16" (by decide)⟩

/-- Counterexample to C7 as stated: on iOS the video-track lookup happens
before the aspect-ratio parse, so the INVALID_ASPECT_RATIO rejection for
"16" is not issued before any track is opened (the trace starts with the
track enumeration), and a file with no video track rejects with
NO_VIDEO_TRACK instead; moreover "-16:9" — not two positive-number parts —
is accepted by both platforms and the crop proceeds. -/
theorem c7_counterexample :
    iosCropVideoTrace true true "16" = [.openTracks, .reject "INVALID_ASPECT_RATIO"] ∧
    (iosCropVideoTrace true true "16").head? = some CropEv.openTracks ∧
    iosCropVideoTrace true false "16" = [.openTracks, .reject "NO_VIDEO_TRACK"] ∧
    androidCropVideoTrace true true "-16:9" = [.openTracks, .computeCrop, .runExport] ∧
    iosCropVideoTrace true true "-16:9" = [.openTracks, .computeCrop, .runExport] := by
  refine ⟨by decide, by decide, by decide, ?_, ?_⟩
  · unfold androidCropVideoTrace
    rw [if_neg (by decide : ¬ (true = false)),
      show kotlinParseAspect "-16:9" = some (-((16 : ℕ) : ℚ) / ((9 : ℕ) : ℚ)) from rfl,
      if_neg (by decide : ¬ (true = false))]
  · unfold iosCropVideoTrace
    rw [if_neg (by decide : ¬ (true = false)), if_neg (by decide : ¬ (true = false)),
      show swiftParseAspect "-16:9" = some (-((16 : ℕ) : ℚ) / ((9 : ℕ) : ℚ)) from rfl]

/-- C8: the JavaScript rotateVideo wrapper rejects every angle outside
{90, -90, 180, 270} with its invalid-angle error before invoking the native
module, so no output is ever produced for such an angle; conversely a
native call only ever carries a legal angle. -/
theorem c8_invalid_angle_rejected (pathOk : Bool) (angle : ℤ)
    (h : angle ∉ validAngles) :
    jsRotateVideo true angle = .errInvalidAngle ∧
    (∀ a : ℤ, jsRotateVideo pathOk angle ≠ .nativeCall a) ∧
    (∀ (p : Bool) (b a : ℤ), jsRotateVideo p b = .nativeCall a → a ∈ validAngles) := by
  refine ⟨?_, ?_, ?_⟩
  · unfold jsRotateVideo
    rw [if_neg (by decide : ¬ (true = false)), if_pos h]
  · intro a
    unfold jsRotateVideo
    cases pathOk with
    | false => rw [if_pos rfl]; exact fun hc => JsRotate.noConfusion hc
    | true => rw [if_neg (by decide : ¬ (true = false)), if_pos h]; exact fun hc => JsRotate.noConfusion hc
  · intro p b a hEq
    unfold jsRotateVideo at hEq
    cases p with
    | false => rw [if_pos rfl] at hEq; exact (JsRotate.noConfusion hEq)
    | true =>
      rw [if_neg (by decide : ¬ (true = false))] at hEq
      by_cases hb : b ∈ validAngles
      · rw [if_neg (fun hc => hc hb)] at hEq
        cases hEq
        exact hb
      · rw [if_pos hb] at hEq
        exact (JsRotate.noConfusion hEq)

/-- Witness for C8 at the angle 45 from the spec's example. -/
theorem c8_invalid_angle_rejected_witness :
    ((45 : ℤ) ∉ validAngles) ∧
    jsRotateVideo true 45 = .errInvalidAngle ∧
    (∀ a : ℤ, jsRotateVideo true 45 ≠ .nativeCall a) ∧
    (∀ (p : Bool) (b a : ℤ), jsRotateVideo p b = .nativeCall a → a ∈ validAngles) :=
  ⟨by decide,
    (c8_invalid_angle_rejected true 45 (by decide)).1,
    (c8_invalid_angle_rejected true 45 (by decide)).2.1,
    (c8_invalid_angle_rejected true 45 (by decide)).2.2⟩

end VTrans
